import Mathlib

/-!
Verification of the reconciliation and derivation engine of `analyze_stocks.py`
(repository `teleb98/stock-analysis`).

The engine processes each company independently.  A company's data arrives as a
per-metric grid over the seven fiscal years 2020..2026 (plus one `Current` slot
for the `CurrentPrice` metric).  Cells are either a defined number or undefined
(`NaN` in the source); we model a cell as `Option ℚ` and a metric row as
`Fin 7 → Option ℚ` with index `0 ↦ 2020, …, 6 ↦ 2026`.  A metric row may be
absent from the company's panel altogether, hence `Option (Fin 7 → Option ℚ)`.

Floating-point arithmetic is idealised as exact rational arithmetic; the one
genuinely real-valued operation (the fractional power in the CAGR) is modelled
over ℝ.  The guard `pd.notna(x) and abs(x) != np.inf` on a quotient `p / e`
holds in floats exactly when `p` and `e` are both defined and `e ≠ 0`
(division by zero yields `±inf` or `NaN`); `safeDiv` captures this.
-/

namespace StockAnalysis

/-- A metric row: one optional value per fiscal year 2020..2026
(`0 ↦ 2020, …, 6 ↦ 2026`). -/
abbrev Row : Type := Fin 7 → Option ℚ

/-- Keep a defined cell, fall back to the second cell otherwise (the cellwise
behaviour of `combine_first` and `ffill`). -/
def cellOr (a b : Option ℚ) : Option ℚ :=
  match a with
  | some v => some v
  | none => b

/-- A company's panel as built by the pivot/group step of `analyze`
(lines 52–70): each field is one metric row, `none` when the metric is absent
from the company's raw facts.  `currentPrice` is `some c` when a `CurrentPrice`
metric row exists, with `c` its `Current`-column cell.  `shares` is the
`발행주식수` (shares outstanding) row. -/
structure Group where
  fixedDatePrice : Option Row
  currentPrice : Option (Option ℚ)
  bps : Option Row
  pbr : Option Row
  per : Option Row
  eps : Option Row
  dps : Option Row
  shares : Option Row

/-- Tier 1 of the price reconciler (lines 76–84): start from an all-undefined
series and copy every defined `FixedDatePrice` cell. -/
def tier1 (g : Group) : Row :=
  fun y =>
    match g.fixedDatePrice with
    | some row => row y
    | none => none

/-- Tier 2 (lines 86–90): if the 2026 slot is still undefined and the
`CurrentPrice` row has a defined `Current` cell, fill the 2026 slot from it. -/
def tier2 (g : Group) (p : Row) : Row :=
  if (p 6).isNone then
    match g.currentPrice with
    | some (some c) => Function.update p 6 (some c)
    | _ => p
  else p

/-- Tier 3 (lines 92–98): when both the raw `BPS` and raw `PBR` rows exist,
fill every still-undefined slot with `BPS[y] * PBR[y]` where both cells are
defined (`combine_first` fills only `NaN` slots). -/
def tier3 (g : Group) (p : Row) : Row :=
  match g.bps, g.pbr with
  | some bpsRow, some pbrRow =>
      fun y =>
        cellOr (p y)
          (match bpsRow y, pbrRow y with
           | some b, some q => some (b * q)
           | _, _ => none)
  | _, _ => p

/-- The resolved price series `price_vals`: the three tiers applied in order. -/
def priceVals (g : Group) : Row :=
  tier3 g (tier2 g (tier1 g))

/-- Quotient `p / e` under the recalculation guard of lines 119 and 130:
the quotient is written only when it is defined and finite, i.e. when both
operands are defined and the divisor is nonzero. -/
def safeDiv (p e : Option ℚ) : Option ℚ :=
  match p, e with
  | some p, some e => if e = 0 then none else some (p / e)
  | _, _ => none

/-- The recalculated `PER` row (lines 104–120): when an `EPS` row exists, an
all-undefined `PER` row is created if absent, and each year's cell is
overwritten with `price / eps` whenever that quotient passes the guard;
otherwise the prior cell is kept.  Without an `EPS` row nothing happens. -/
def recalcPer (g : Group) (price : Row) : Option Row :=
  match g.eps with
  | none => g.per
  | some epsRow =>
      let base : Row :=
        match g.per with
        | some r => r
        | none => fun _ => none
      some (fun y =>
        match safeDiv (price y) (epsRow y) with
        | some v => some v
        | none => base y)

/-- The recalculated `PBR` row (lines 122–131), same rule with `price / bps`. -/
def recalcPbr (g : Group) (price : Row) : Option Row :=
  match g.bps with
  | none => g.pbr
  | some bpsRow =>
      let base : Row :=
        match g.pbr with
        | some r => r
        | none => fun _ => none
      some (fun y =>
        match safeDiv (price y) (bpsRow y) with
        | some v => some v
        | none => base y)

/-- The ratio recalculator: mutate the `PER` and `PBR` rows of the panel in
place, leaving every other row untouched. -/
def recalc (g : Group) : Group :=
  { g with per := recalcPer g (priceVals g), pbr := recalcPbr g (priceVals g) }

/-- The six target metrics of the row emitter (line 178). -/
inductive TargetMetric where
  | BPS
  | DPS
  | EPS
  | PBR
  | PER
  | PRICE
  deriving DecidableEq

/-- The panel row backing each target metric at emission time: `PER`/`PBR` are
the recalculated rows, `PRICE` is the resolved price series (always present,
appended at line 138), the rest are the builder's rows. -/
def finalRow (g : Group) : TargetMetric → Option Row
  | TargetMetric.BPS => (recalc g).bps
  | TargetMetric.DPS => (recalc g).dps
  | TargetMetric.EPS => (recalc g).eps
  | TargetMetric.PBR => (recalc g).pbr
  | TargetMetric.PER => (recalc g).per
  | TargetMetric.PRICE => some (priceVals g)

/-- Emission order of the target metrics (line 178). -/
def targetMetrics : List TargetMetric :=
  [TargetMetric.BPS, TargetMetric.DPS, TargetMetric.EPS,
   TargetMetric.PBR, TargetMetric.PER, TargetMetric.PRICE]

/-- The row emitter (lines 178–192): one output row per target metric present
in the panel, skipping absent metrics. -/
def emitRows (g : Group) : List (TargetMetric × Row) :=
  targetMetrics.filterMap (fun m => (finalRow g m).map (fun r => (m, r)))

/-- Value `group.loc['PER', '2026']` as read by the classifier (line 143):
undefined when the `PER` row is absent. -/
def per2026 (g : Group) : Option ℚ :=
  (recalc g).per.bind (fun r => r 6)

/-- Value `group.loc['PBR', '2026']` as read by the classifier (line 144). -/
def pbr2026 (g : Group) : Option ℚ :=
  (recalc g).pbr.bind (fun r => r 6)

/-- The undervaluation flag (lines 146–149): both 2026 ratios defined, PER
below 8 and PBR below 0.8. -/
def isUndervalued (g : Group) : Bool :=
  match per2026 g, pbr2026 g with
  | some p, some b => decide (p < 8) && decide (b < 8 / 10)
  | _, _ => false

/-- Value `EPS[2021]` as read by the classifier (line 152). -/
def eps2021 (g : Group) : Option ℚ :=
  g.eps.bind (fun r => r 1)

/-- Value `EPS[2026]` as read by the classifier (line 153). -/
def eps2026 (g : Group) : Option ℚ :=
  g.eps.bind (fun r => r 6)

/-- Function `calculate_cagr` (lines 35–41): 0 for a non-positive start or end value,
otherwise `(end / start) ^ (1 / years) - 1` over the reals. -/
noncomputable def calculate_cagr (start_val end_val : ℚ) (years : ℕ) : ℝ :=
  if start_val ≤ 0 ∨ end_val ≤ 0 then 0
  else ((end_val : ℝ) / (start_val : ℝ)) ^ ((1 : ℝ) / (years : ℝ)) - 1

/-- The growth-rate threshold `CAGR_THRESHOLD = 0.12` (line 12). -/
noncomputable def CAGR_THRESHOLD : ℝ := 12 / 100

/-- The reported CAGR (lines 155–158): 0 unless both `EPS[2021]` and
`EPS[2026]` are defined, otherwise `calculate_cagr` over five years. -/
noncomputable def cagrOf (g : Group) : ℝ :=
  match eps2021 g, eps2026 g with
  | some a, some b => calculate_cagr a b 5
  | _, _ => 0

/-- The high-growth flag (lines 156–160): the reported CAGR strictly exceeds
the threshold. -/
def isHighGrowth (g : Group) : Prop :=
  cagrOf g > CAGR_THRESHOLD

/-- Forward fill `ffill().iloc[-1]` on the shares row (line 165): the last defined value
across the seven years, undefined when every year is undefined. -/
def lastShares (row : Row) : Option ℚ :=
  cellOr (row 6) (cellOr (row 5) (cellOr (row 4) (cellOr (row 3)
    (cellOr (row 2) (cellOr (row 1) (row 0))))))

/-- Market cap `market_cap_2026` (lines 162–169): 0 when the shares row is absent or
`PRICE[2026]` is undefined, otherwise forward-filled shares (default 0) times
`PRICE[2026]`.  The `'PRICE' in group.index` test always holds at this point
because the `PRICE` row was appended at line 138. -/
def marketCap2026 (g : Group) : ℚ :=
  match g.shares with
  | none => 0
  | some row =>
      match priceVals g 6 with
      | none => 0
      | some p => (lastShares row).getD 0 * p

/-- The size bucket: `large` = `"대기업"`, `smallMid` = `"중소형"`. -/
inductive Bucket where
  | large
  | smallMid
  deriving DecidableEq

/-- The size-bucket computation (lines 171–175), with its two redundant
strict-threshold branches kept as in the source. -/
def sizeBucket (g : Group) : Bucket :=
  if marketCap2026 g > 10000000000000 then Bucket.large
  else if marketCap2026 g > 5000000000000 then Bucket.large
  else Bucket.smallMid

/-! ### Sample companies used as concrete instances -/

/-- A company with no raw facts at all. -/
def emptyGroup : Group :=
  { fixedDatePrice := none, currentPrice := none, bps := none, pbr := none,
    per := none, eps := none, dps := none, shares := none }

/-- A company with a full `FixedDatePrice` row, raw `BPS`/`PBR` rows and a
`CurrentPrice` value. -/
def gA : Group :=
  { emptyGroup with
    fixedDatePrice := some (fun _ => some 100),
    currentPrice := some (some 5000),
    bps := some (fun _ => some 10000),
    pbr := some (fun _ => some (6 / 5)) }

/-- A recently listed company: no `FixedDatePrice` row, only a current price. -/
def gB : Group :=
  { emptyGroup with currentPrice := some (some 5000) }

/-! ### Price-tier lemmas -/

lemma tier2_preserves (g : Group) (p : Row) (y : Fin 7) (v : ℚ)
    (h : p y = some v) : tier2 g p y = some v := by
  unfold tier2
  split
  · rcases g.currentPrice with _ | (_ | c)
    · exact h
    · exact h
    · rcases eq_or_ne y 6 with rfl | hy
      · simp_all
      · simpa [Function.update_apply, hy]
  · exact h

lemma tier2_ne6 (g : Group) (p : Row) (y : Fin 7) (hy : y ≠ 6) :
    tier2 g p y = p y := by
  unfold tier2
  split
  · rcases g.currentPrice with _ | (_ | c) <;>
      simp [Function.update_apply, hy]
  · rfl

lemma tier2_some6 (g : Group) (p : Row) (v : ℚ) (h : p 6 = some v) :
    tier2 g p = p := by
  simp [tier2, h]

lemma tier3_preserves (g : Group) (p : Row) (y : Fin 7) (v : ℚ)
    (h : p y = some v) : tier3 g p y = some v := by
  unfold tier3
  rcases g.bps with _ | bpsRow <;> rcases g.pbr with _ | pbrRow <;>
    simp [cellOr, h]

/-- Claim C2: price resolution is monotonic across the three tiers — a slot
set by tier 1 survives tiers 2 and 3 unchanged, a slot set by tier 2 survives
tier 3 unchanged, and the emitted `PRICE` row is exactly the tier-3 output, so
a slot undefined after all three tiers is emitted undefined. -/
theorem tiers_monotonic (g : Group) (y : Fin 7) :
    (∀ v, tier1 g y = some v → tier2 g (tier1 g) y = some v) ∧
    (∀ v, tier2 g (tier1 g) y = some v → priceVals g y = some v) ∧
    (∀ v, tier1 g y = some v → priceVals g y = some v) ∧
    (∀ r, finalRow g TargetMetric.PRICE = some r → r y = priceVals g y) := by
  refine ⟨fun v h => tier2_preserves g _ y v h,
          fun v h => tier3_preserves g _ y v h,
          fun v h => tier3_preserves g _ y v (tier2_preserves g _ y v h),
          ?_⟩
  intro r hr
  simp only [finalRow, Option.some.injEq] at hr
  rw [← hr]

/-- Concrete instance of `tiers_monotonic`: `gA`'s fixed-date price for 2020
survives to the final resolved series. -/
theorem tiers_monotonic_witness : priceVals gA 0 = some 100 :=
  (tiers_monotonic gA 0).2.2.1 100 rfl

/-- Claim C7: the `CurrentPrice` fallback fills exactly the still-undefined
2026 slot from a defined `Current` cell, touches no other year, and does
nothing when the 2026 slot is already resolved. -/
theorem tier2_only_2026 (g : Group) :
    (∀ c, tier1 g 6 = none → g.currentPrice = some (some c) →
       tier2 g (tier1 g) 6 = some c) ∧
    (∀ y : Fin 7, y ≠ 6 → tier2 g (tier1 g) y = tier1 g y) ∧
    (∀ v, tier1 g 6 = some v → tier2 g (tier1 g) = tier1 g) := by
  refine ⟨?_, fun y hy => tier2_ne6 g _ y hy, fun v h => tier2_some6 g _ v h⟩
  intro c h6 hcp
  simp [tier2, h6, hcp]

/-- Concrete instance of `tier2_only_2026`: company `gB` (no historical
prices, current price 5000) gets `PRICE[2026] = 5000` via tier 2. -/
theorem tier2_only_2026_witness : tier2 gB (tier1 gB) 6 = some 5000 :=
  (tier2_only_2026 gB).1 5000 rfl rfl

/-- A company with fixed-date prices, an `EPS` row (1000 in 2021, 0 in 2023,
2000 in 2026) and a raw `PER` row of 50s. -/
def gC : Group :=
  { emptyGroup with
    fixedDatePrice := some (fun _ => some 100),
    eps := some (fun y =>
      if y = 1 then some 1000 else if y = 3 then some 0
      else if y = 6 then some 2000 else none),
    per := some (fun _ => some 50) }

/-- An undervalued company: price 100, EPS 20, BPS 200 in every year. -/
def gU : Group :=
  { emptyGroup with
    fixedDatePrice := some (fun _ => some 100),
    eps := some (fun _ => some 20),
    bps := some (fun _ => some 200) }

/-- A company whose 2021 EPS is negative. -/
def gD : Group :=
  { emptyGroup with
    eps := some (fun y =>
      if y = 1 then some (-5) else if y = 6 then some 3 else none) }

/-! ### Ratio recalculation -/

/-- Claim C1: after recalculation, `PER[y] = PRICE[y] / EPS[y]` whenever both
operands are defined and the quotient is finite (nonzero divisor); in every
other case `PER[y]` keeps its pre-recalculation value.  Likewise for `PBR[y]`
with `PRICE[y] / BPS[y]`. -/
theorem recalc_ratio_rule (g : Group) (y : Fin 7) :
    (∀ p e, priceVals g y = some p → g.eps.bind (fun r => r y) = some e →
       e ≠ 0 → (recalc g).per.bind (fun r => r y) = some (p / e)) ∧
    (safeDiv (priceVals g y) (g.eps.bind (fun r => r y)) = none →
       (recalc g).per.bind (fun r => r y) = g.per.bind (fun r => r y)) ∧
    (∀ p b, priceVals g y = some p → g.bps.bind (fun r => r y) = some b →
       b ≠ 0 → (recalc g).pbr.bind (fun r => r y) = some (p / b)) ∧
    (safeDiv (priceVals g y) (g.bps.bind (fun r => r y)) = none →
       (recalc g).pbr.bind (fun r => r y) = g.pbr.bind (fun r => r y)) := by
  refine ⟨?_, ?_, ?_, ?_⟩
  · intro p e hp he hne
    rcases heps : g.eps with _ | epsRow
    · rw [heps] at he; cases he
    · rw [heps] at he; simp only [Option.some_bind] at he
      simp [recalc, recalcPer, heps, safeDiv, hp, he, hne]
  · intro hsafe
    rcases heps : g.eps with _ | epsRow
    · simp [recalc, recalcPer, heps]
    · rw [heps] at hsafe; simp only [Option.some_bind] at hsafe
      rcases hper : g.per with _ | perRow <;>
        simp [recalc, recalcPer, heps, hper, hsafe]
  · intro p b hp hb hne
    rcases hbps : g.bps with _ | bpsRow
    · rw [hbps] at hb; cases hb
    · rw [hbps] at hb; simp only [Option.some_bind] at hb
      simp [recalc, recalcPbr, hbps, safeDiv, hp, hb, hne]
  · intro hsafe
    rcases hbps : g.bps with _ | bpsRow
    · simp [recalc, recalcPbr, hbps]
    · rw [hbps] at hsafe; simp only [Option.some_bind] at hsafe
      rcases hpbr : g.pbr with _ | pbrRow <;>
        simp [recalc, recalcPbr, hbps, hpbr, hsafe]

/-- Concrete instance of `recalc_ratio_rule` on `gC`: 2021 gets the recomputed
quotient `100 / 1000`, while 2023 (EPS = 0, quotient infinite) keeps the raw
value 50. -/
theorem recalc_ratio_rule_witness :
    (recalc gC).per.bind (fun r => r 1) = some (100 / 1000) ∧
    (recalc gC).per.bind (fun r => r 3) = some 50 :=
  ⟨(recalc_ratio_rule gC 1).1 100 1000 (by decide) (by decide) (by decide),
   ((recalc_ratio_rule gC 3).2.1 (by decide)).trans (by decide)⟩

/-! ### Classifier: undervaluation -/

/-- Claim C5: `isUndervalued` holds exactly when the post-recalculation
`PER[2026]` and `PBR[2026]` are both defined with `PER[2026] < 8` and
`PBR[2026] < 0.8`; an undefined value forces `false`. -/
theorem undervalued_iff (g : Group) :
    (isUndervalued g = true ↔
      ∃ p b, per2026 g = some p ∧ pbr2026 g = some b ∧ p < 8 ∧ b < 8 / 10) ∧
    (per2026 g = none ∨ pbr2026 g = none → isUndervalued g = false) := by
  constructor
  · rcases hp : per2026 g with _ | p <;> rcases hb : pbr2026 g with _ | b <;>
      simp [isUndervalued, hp, hb]
  · intro h
    rcases h with h | h <;>
      rcases hp : per2026 g with _ | p <;> rcases hb : pbr2026 g with _ | b <;>
      simp_all [isUndervalued]

/-- Concrete instance of `undervalued_iff`: `gU` has recomputed
`PER[2026] = 5` and `PBR[2026] = 1/2`, hence is undervalued. -/
theorem undervalued_iff_witness : isUndervalued gU = true :=
  (undervalued_iff gU).1.mpr
    ⟨100 / 20, 100 / 200, rfl, rfl, by norm_num, by norm_num⟩

/-! ### Classifier: growth -/

/-- Claim C4: with `EPS[2021]` and `EPS[2026]` both defined and positive, the
reported CAGR is `(EPS[2026] / EPS[2021]) ^ (1/5) - 1` and the high-growth
flag holds exactly when that value exceeds the 12% threshold. -/
theorem cagr_formula (g : Group) (a b : ℚ)
    (h21 : eps2021 g = some a) (h26 : eps2026 g = some b)
    (ha : 0 < a) (hb : 0 < b) :
    cagrOf g = ((b : ℝ) / (a : ℝ)) ^ ((1 : ℝ) / 5) - 1 ∧
    (isHighGrowth g ↔
      ((b : ℝ) / (a : ℝ)) ^ ((1 : ℝ) / 5) - 1 > 12 / 100) := by
  have hm : cagrOf g = calculate_cagr a b 5 := by
    unfold cagrOf
    rw [h21, h26]
  have hc : cagrOf g = ((b : ℝ) / (a : ℝ)) ^ ((1 : ℝ) / 5) - 1 := by
    rw [hm]
    unfold calculate_cagr
    rw [if_neg]
    · norm_num
    · push_neg
      exact ⟨ha, hb⟩
  refine ⟨hc, ?_⟩
  unfold isHighGrowth CAGR_THRESHOLD
  rw [hc]

/-- Concrete instance of `cagr_formula` on `gC` (EPS 1000 → 2000). -/
theorem cagr_formula_witness :
    cagrOf gC = (((2000 : ℚ) : ℝ) / ((1000 : ℚ) : ℝ)) ^ ((1 : ℝ) / 5) - 1 ∧
    (isHighGrowth gC ↔
      (((2000 : ℚ) : ℝ) / ((1000 : ℚ) : ℝ)) ^ ((1 : ℝ) / 5) - 1 > 12 / 100) :=
  cagr_formula gC 1000 2000 (by decide) (by decide) (by decide) (by decide)

/-- Claim C6: when `EPS[2021]` or `EPS[2026]` is undefined or non-positive,
the reported CAGR is 0 and the high-growth flag is off (the embedding is a
total function, so no error is possible on such inputs). -/
theorem cagr_degenerate (g : Group)
    (h : eps2021 g = none ∨ eps2026 g = none ∨
         (∃ a, eps2021 g = some a ∧ a ≤ 0) ∨
         (∃ b, eps2026 g = some b ∧ b ≤ 0)) :
    cagrOf g = 0 ∧ ¬ isHighGrowth g := by
  have hc : cagrOf g = 0 := by
    unfold cagrOf
    rcases h1 : eps2021 g with _ | a <;> rcases h2 : eps2026 g with _ | b <;>
      try rfl
    have hab : a ≤ 0 ∨ b ≤ 0 := by
      rcases h with h | h | ⟨a', ha', hle⟩ | ⟨b', hb', hle⟩
      · rw [h1] at h; cases h
      · rw [h2] at h; cases h
      · rw [h1] at ha'; injection ha' with ha''; exact Or.inl (ha'' ▸ hle)
      · rw [h2] at hb'; injection hb' with hb''; exact Or.inr (hb'' ▸ hle)
    show calculate_cagr a b 5 = 0
    unfold calculate_cagr
    rw [if_pos hab]
  refine ⟨hc, ?_⟩
  unfold isHighGrowth CAGR_THRESHOLD
  rw [hc]
  norm_num

/-- Concrete instance of `cagr_degenerate`: `gD` has `EPS[2021] = -5`, so its
CAGR is reported as 0 and it is not flagged high-growth. -/
theorem cagr_degenerate_witness : cagrOf gD = 0 ∧ ¬ isHighGrowth gD :=
  cagr_degenerate gD (Or.inr (Or.inr (Or.inl ⟨-5, by decide, by decide⟩)))

/-! ### Row emission -/

lemma mem_targetMetrics (m : TargetMetric) : m ∈ targetMetrics := by
  cases m <;> simp [targetMetrics]

lemma mem_emitRows (g : Group) (m : TargetMetric) (r : Row) :
    (m, r) ∈ emitRows g ↔ finalRow g m = some r := by
  simp only [emitRows, List.mem_filterMap]
  constructor
  · rintro ⟨m', -, hm'⟩
    rcases hfin : finalRow g m' with _ | r'
    · rw [hfin] at hm'; cases hm'
    · rw [hfin] at hm'
      simp only [Option.map_some', Option.some.injEq, Prod.mk.injEq] at hm'
      obtain ⟨rfl, rfl⟩ := hm'
      exact hfin
  · intro hfin
    exact ⟨m, mem_targetMetrics m, by rw [hfin]; rfl⟩

lemma map_fst_filterMap_sublist (l : List TargetMetric)
    (f : TargetMetric → Option (TargetMetric × Row))
    (hf : ∀ a p, f a = some p → p.1 = a) :
    ((l.filterMap f).map Prod.fst).Sublist l := by
  induction l with
  | nil => simp
  | cons a l ih =>
      rw [List.filterMap_cons]
      rcases hfa : f a with _ | p
      · exact ih.cons a
      · rw [List.map_cons, hf a p hfa]
        exact ih.cons₂ a

lemma emitRows_fst_nodup (g : Group) :
    ((emitRows g).map Prod.fst).Nodup := by
  have hsub : ((emitRows g).map Prod.fst).Sublist targetMetrics := by
    apply map_fst_filterMap_sublist
    intro a p hp
    rcases hfin : finalRow g a with _ | r
    · rw [hfin] at hp; cases hp
    · rw [hfin] at hp
      simp only [Option.map_some', Option.some.injEq] at hp
      rw [← hp]
  have hnodup : targetMetrics.Nodup := by decide
  exact hnodup.sublist hsub

/-- Claim C8: the row emitter emits a row for metric `m` exactly when `m` is
present in the panel at emission time, with the panel's row as payload; an
absent metric yields no row; and no metric ever yields two rows (the emitted
metric labels are pairwise distinct), so other metrics are emitted
independently of a missing one. -/
theorem emit_rows_exact (g : Group) (m : TargetMetric) :
    (∀ r, (m, r) ∈ emitRows g ↔ finalRow g m = some r) ∧
    (finalRow g m = none → ∀ r, (m, r) ∉ emitRows g) ∧
    ((emitRows g).map Prod.fst).Nodup := by
  refine ⟨fun r => mem_emitRows g m r, ?_, emitRows_fst_nodup g⟩
  intro hnone r hmem
  rw [mem_emitRows, hnone] at hmem
  cases hmem

/-- Concrete instance of `emit_rows_exact`: company `gB` has no `EPS` row, so
no `EPS` output row is emitted. -/
theorem emit_rows_exact_witness :
    (TargetMetric.EPS, fun _ => none) ∉ emitRows gB :=
  (emit_rows_exact gB TargetMetric.EPS).2.1 rfl (fun _ => none)

/-- Claim C9: a company with an `EPS` row but no raw `PER` row still emits a
`PER` output row, whose cells are exactly the guarded quotients
`PRICE[y] / EPS[y]` (undefined where the guard fails); likewise a `BPS` row
without raw `PBR` yields a `PBR` output row of guarded `PRICE[y] / BPS[y]`. -/
theorem ratio_row_created (g : Group) :
    (∀ epsRow, g.eps = some epsRow → g.per = none →
       ∃ r, (TargetMetric.PER, r) ∈ emitRows g ∧
         ∀ y, r y = safeDiv (priceVals g y) (epsRow y)) ∧
    (∀ bpsRow, g.bps = some bpsRow → g.pbr = none →
       ∃ r, (TargetMetric.PBR, r) ∈ emitRows g ∧
         ∀ y, r y = safeDiv (priceVals g y) (bpsRow y)) := by
  constructor
  · intro epsRow heps hper
    refine ⟨fun y => safeDiv (priceVals g y) (epsRow y),
            (mem_emitRows g _ _).mpr ?_, fun y => rfl⟩
    show recalcPer g (priceVals g) = some _
    simp only [recalcPer, heps, hper]
    congr 1
    funext y
    rcases hs : safeDiv (priceVals g y) (epsRow y) with _ | v <;> simp [hs]
  · intro bpsRow hbps hpbr
    refine ⟨fun y => safeDiv (priceVals g y) (bpsRow y),
            (mem_emitRows g _ _).mpr ?_, fun y => rfl⟩
    show recalcPbr g (priceVals g) = some _
    simp only [recalcPbr, hbps, hpbr]
    congr 1
    funext y
    rcases hs : safeDiv (priceVals g y) (bpsRow y) with _ | v <;> simp [hs]

/-- Concrete instance of `ratio_row_created`: `gU` has an `EPS` row and no raw
`PER` row, and emits a `PER` row of quotients. -/
theorem ratio_row_created_witness :
    ∃ r, (TargetMetric.PER, r) ∈ emitRows gU ∧
      ∀ y, r y = safeDiv (priceVals gU y) (some 20) :=
  (ratio_row_created gU).1 (fun _ => some 20) rfl rfl

/-- Claim C10: the ratio recalculator mutates only the `PER` and `PBR` rows —
every other row of the panel is left untouched, and the emitted `BPS`, `DPS`
and `EPS` rows are exactly the panel builder's coerced raw rows. -/
theorem recalc_frame (g : Group) :
    (recalc g).bps = g.bps ∧ (recalc g).dps = g.dps ∧
    (recalc g).eps = g.eps ∧ (recalc g).shares = g.shares ∧
    (recalc g).fixedDatePrice = g.fixedDatePrice ∧
    (recalc g).currentPrice = g.currentPrice ∧
    (∀ r, (TargetMetric.BPS, r) ∈ emitRows g → g.bps = some r) ∧
    (∀ r, (TargetMetric.DPS, r) ∈ emitRows g → g.dps = some r) ∧
    (∀ r, (TargetMetric.EPS, r) ∈ emitRows g → g.eps = some r) := by
  refine ⟨rfl, rfl, rfl, rfl, rfl, rfl, ?_, ?_, ?_⟩ <;>
    · intro r h
      rw [mem_emitRows] at h
      exact h

/-- Concrete instance of `recalc_frame`: the emitted `BPS` row of `gU` is its
raw `BPS` row. -/
theorem recalc_frame_witness : gU.bps = some (fun _ => some (200 : ℚ)) :=
  (recalc_frame gU).2.2.2.2.2.2.1 (fun _ => some (200 : ℚ))
    ((mem_emitRows gU TargetMetric.BPS _).mpr rfl)

/-! ### Size bucket -/

/-- A company whose 2026 market capitalisation is exactly `5 * 10 ^ 12`:
one share outstanding, fixed-date price `5 * 10 ^ 12` every year. -/
def gX : Group :=
  { emptyGroup with
    fixedDatePrice := some (fun _ => some 5000000000000),
    shares := some (fun _ => some 1) }

/-- Claim C3 fails as stated: `gX` has market capitalisation exactly
`5 * 10 ^ 12`, yet its bucket is not `large` — the source compares with a
strict `>`, not `>=`. -/
theorem bucket_boundary_counterexample :
    marketCap2026 gX ≥ 5 * 10 ^ 12 ∧ sizeBucket gX ≠ Bucket.large := by
  have hmc : marketCap2026 gX = 5000000000000 := by
    simp [marketCap2026, gX, emptyGroup, priceVals, tier1, tier2, tier3,
      lastShares, cellOr]
  constructor
  · rw [hmc]; norm_num
  · unfold sizeBucket
    rw [hmc]
    norm_num
    decide

/-- Claim C3 amended: the bucket is `large` iff `marketCap2026` strictly
exceeds `5 * 10 ^ 12` (the two source thresholds collapse to the lower one);
the market cap is 0 when the shares row is absent or `PRICE[2026]` is
undefined, and otherwise equals the forward-filled share count (default 0)
times `PRICE[2026]`; forward-fill returns the last defined yearly value. -/
theorem bucket_amended (g : Group) :
    (sizeBucket g = Bucket.large ↔ marketCap2026 g > 5 * 10 ^ 12) ∧
    (g.shares = none → marketCap2026 g = 0) ∧
    (∀ row, g.shares = some row → priceVals g 6 = none →
       marketCap2026 g = 0) ∧
    (∀ row p, g.shares = some row → priceVals g 6 = some p →
       marketCap2026 g = (lastShares row).getD 0 * p) ∧
    (∀ (row : Row) (y : Fin 7) v, row y = some v →
       (∀ z : Fin 7, y < z → row z = none) → lastShares row = some v) ∧
    (∀ row : Row, (∀ y, row y = none) → lastShares row = none) := by
  refine ⟨?_, ?_, ?_, ?_, ?_, ?_⟩
  · unfold sizeBucket
    split_ifs with h1 h2
    · simp only [true_iff, iff_true]
      norm_num
      linarith
    · simp only [true_iff, iff_true]
      norm_num at h2 ⊢
      exact h2
    · constructor
      · intro hcon; cases hcon
      · intro hgt
        norm_num at hgt
        exact absurd hgt h2
  · intro h; simp [marketCap2026, h]
  · intro row hs hp; simp [marketCap2026, hs, hp]
  · intro row p hs hp; simp [marketCap2026, hs, hp]
  · intro row y v hv hafter
    fin_cases y
    · have hv' : row 0 = some v := hv
      simp [lastShares, cellOr, hv', hafter 1 (by decide), hafter 2 (by decide),
        hafter 3 (by decide), hafter 4 (by decide), hafter 5 (by decide),
        hafter 6 (by decide)]
    · have hv' : row 1 = some v := hv
      simp [lastShares, cellOr, hv', hafter 2 (by decide), hafter 3 (by decide),
        hafter 4 (by decide), hafter 5 (by decide), hafter 6 (by decide)]
    · have hv' : row 2 = some v := hv
      simp [lastShares, cellOr, hv', hafter 3 (by decide), hafter 4 (by decide),
        hafter 5 (by decide), hafter 6 (by decide)]
    · have hv' : row 3 = some v := hv
      simp [lastShares, cellOr, hv', hafter 4 (by decide), hafter 5 (by decide),
        hafter 6 (by decide)]
    · have hv' : row 4 = some v := hv
      simp [lastShares, cellOr, hv', hafter 5 (by decide), hafter 6 (by decide)]
    · have hv' : row 5 = some v := hv
      simp [lastShares, cellOr, hv', hafter 6 (by decide)]
    · have hv' : row 6 = some v := hv
      simp [lastShares, cellOr, hv']
  · intro row h; simp [lastShares, cellOr, h]

/-- Concrete instance of `bucket_amended`: `gX`'s market capitalisation is its
forward-filled share count times its resolved 2026 price. -/
theorem bucket_amended_witness :
    marketCap2026 gX = (lastShares (fun _ => some 1)).getD 0 * 5000000000000 :=
  (bucket_amended gX).2.2.2.1 (fun _ => some 1) 5000000000000 rfl rfl

end StockAnalysis
